import Mathlib

/-!
Shallow embedding of `src/main.py` (a coffee-order builder).

Modelling conventions:
* Python `float` prices are embedded as exact rationals `ℚ`; the source
  performs only arithmetic on constant tables and the spec treats prices
  as real numbers with no internal rounding.
* Python strings are Lean `String`s; `str.strip` / `str.lower` are
  modelled character-wise on `String.data` (`py_strip`, `py_lower`),
  with `Char.isWhitespace` / `Char.toLower` playing the role of
  Python's whitespace test and lowercasing.
* Every method that can `raise ValueError` is translated as a function
  returning the post-state together with an optional error: the Python
  methods validate before assigning, and the translation keeps each
  `raise` at its place in the statement order, so the returned state on
  an error is exactly the state at the moment Python would raise.
* The spec classifies the `ValueError`s into four kinds by raise site
  (each site has a distinct message); `BuildError` names those kinds.
* `dict[key]` lookups inside `_calc_price` are totalised with default 0;
  in the source they are only reached with keys present in the tables.
-/

deriving instance DecidableEq for Except

namespace Coffee

/-- The four error kinds of the spec, one per distinct `ValueError`
message in the source. -/
inductive BuildError where
  | invalidSelection
  | invalidArgument
  | capacityExceeded
  | incompleteOrder
deriving DecidableEq

/-- Python call argument for `set_sugar`: an actual `int`, or any
non-`int` value (rejected by the `isinstance` check). -/
inductive PyScalar where
  | int (n : Int)
  | nonInt
deriving DecidableEq

/-- Model of `str.join`: `sep.join(parts)`. -/
def str_join (sep : String) : List String → String
  | [] => ""
  | [s] => s
  | s :: rest => s ++ sep ++ str_join sep rest

/-- Model of Python `str.strip()` on the character list. -/
def py_strip_chars (s : List Char) : List Char :=
  ((s.dropWhile Char.isWhitespace).reverse.dropWhile Char.isWhitespace).reverse

/-- Model of Python `str.strip()`. -/
def py_strip (s : String) : String :=
  ⟨py_strip_chars s.data⟩

/-- Model of Python `str.lower()` (character-wise). -/
def py_lower (s : String) : String :=
  ⟨s.data.map Char.toLower⟩

/-- `CoffeeOrder`: frozen dataclass of the source. -/
structure CoffeeOrder where
  base : String
  size : String
  milk : String
  syrups : List String
  sugar : Int
  iced : Bool
  price : ℚ
  description : String
deriving DecidableEq

/-- `BASE_PRICES` table. -/
def BASE_PRICES : List (String × ℚ) :=
  [("espresso", 200), ("americano", 250), ("latte", 300), ("cappuccino", 320)]

/-- `SIZE_MULTIPLIERS` table. -/
def SIZE_MULTIPLIERS : List (String × ℚ) :=
  [("small", 1), ("medium", 1.2), ("large", 1.4)]

/-- `MILK_PRICES` table. -/
def MILK_PRICES : List (String × ℚ) :=
  [("none", 0), ("whole", 30), ("skim", 30), ("oat", 60), ("soy", 50)]

def SYRUP_PRICE : ℚ := 40
def ICED_RATE : ℚ := 0.2
def MAX_SUGAR : Int := 5
def MAX_SYRUPS : Nat := 4

/-- `tuple(BASE_PRICES.keys())` (Python dicts preserve insertion order). -/
def ALLOWED_BASES : List String := BASE_PRICES.map Prod.fst

/-- `tuple(SIZE_MULTIPLIERS.keys())`. -/
def ALLOWED_SIZES : List String := SIZE_MULTIPLIERS.map Prod.fst

/-- `tuple(MILK_PRICES.keys())`. -/
def ALLOWED_MILKS : List String := MILK_PRICES.map Prod.fst

/-- `d[k]` on a constant table (keys are always present at call sites). -/
def dict_get (d : List (String × ℚ)) (k : String) : ℚ :=
  (d.lookup k).getD 0

/-- Mutable state of `CoffeeOrderBuilder`. -/
structure CoffeeOrderBuilder where
  _base : Option String
  _size : Option String
  _milk : String
  _syrups : List String
  _sugar : Int
  _iced : Bool
deriving DecidableEq

namespace CoffeeOrderBuilder

/-- `__init__`. -/
def init : CoffeeOrderBuilder :=
  { _base := none, _size := none, _milk := "none", _syrups := [], _sugar := 0, _iced := false }

/-- `set_base`: result is (post-state, optional error). -/
def set_base (b : CoffeeOrderBuilder) (base : String) :
    CoffeeOrderBuilder × Option BuildError :=
  if base ∉ ALLOWED_BASES then (b, some .invalidSelection)
  else ({ b with _base := some base }, none)

/-- `set_size`. -/
def set_size (b : CoffeeOrderBuilder) (size : String) :
    CoffeeOrderBuilder × Option BuildError :=
  if size ∉ ALLOWED_SIZES then (b, some .invalidSelection)
  else ({ b with _size := some size }, none)

/-- `set_milk`. -/
def set_milk (b : CoffeeOrderBuilder) (milk : String) :
    CoffeeOrderBuilder × Option BuildError :=
  if milk ∉ ALLOWED_MILKS then (b, some .invalidSelection)
  else ({ b with _milk := milk }, none)

/-- `add_syrup`: `name = syrup_name.strip().lower()`, then validate. -/
def add_syrup (b : CoffeeOrderBuilder) (syrup_name : String) :
    CoffeeOrderBuilder × Option BuildError :=
  let name := py_lower (py_strip syrup_name)
  if name = "" then (b, some .invalidArgument)
  else if name ∈ b._syrups then (b, none)
  else if b._syrups.length ≥ MAX_SYRUPS then (b, some .capacityExceeded)
  else ({ b with _syrups := b._syrups ++ [name] }, none)

/-- `set_sugar`: `isinstance(t, int)` check, then range check. -/
def set_sugar (b : CoffeeOrderBuilder) (teaspoons : PyScalar) :
    CoffeeOrderBuilder × Option BuildError :=
  match teaspoons with
  | .nonInt => (b, some .invalidArgument)
  | .int t =>
    if t < 0 ∨ t > MAX_SUGAR then (b, some .invalidArgument)
    else ({ b with _sugar := t }, none)

/-- `set_iced` (the Python default argument is `True`; callers pass it
explicitly here). -/
def set_iced (b : CoffeeOrderBuilder) (iced : Bool) :
    CoffeeOrderBuilder × Option BuildError :=
  ({ b with _iced := iced }, none)

/-- `clear_extras`. -/
def clear_extras (b : CoffeeOrderBuilder) :
    CoffeeOrderBuilder × Option BuildError :=
  ({ b with _milk := "none", _syrups := [], _sugar := 0, _iced := false }, none)

/-- `_calc_price`. -/
def calc_price (base size milk : String) (syrups_count : Nat) (iced : Bool) : ℚ :=
  let base_price := dict_get BASE_PRICES base
  let size_coef := dict_get SIZE_MULTIPLIERS size
  let milk_extra := dict_get MILK_PRICES milk
  let syrups_extra := SYRUP_PRICE * (syrups_count : ℚ)
  let iced_extra := if iced then base_price * ICED_RATE else 0
  base_price * size_coef + milk_extra + syrups_extra + iced_extra

/-- `_make_description`. -/
def make_description (base size milk : String) (syrups : List String)
    (sugar : Int) (iced : Bool) : String :=
  let parts : List String := []
  let parts := parts ++ [size ++ " " ++ base]
  let parts := if milk ≠ "none" then parts ++ ["with " ++ milk ++ " milk"] else parts
  let parts := if syrups ≠ [] then parts ++ ["+ " ++ str_join ", " syrups ++ " syrup"] else parts
  let parts := if iced then parts ++ ["(iced)"] else parts
  let parts :=
    if sugar > 0 then
      parts ++ [toString sugar ++ " " ++ (if sugar = 1 then "tsp" else "tsps") ++ " sugar"]
    else parts
  str_join " " parts

/-- `build`: returns the post-state (always the input state: `build`
performs no assignment to `self`) and the outcome. -/
def build (b : CoffeeOrderBuilder) :
    CoffeeOrderBuilder × Except BuildError CoffeeOrder :=
  match b._base with
  | none => (b, .error .incompleteOrder)
  | some base =>
    match b._size with
    | none => (b, .error .incompleteOrder)
    | some size =>
      let milk := b._milk
      let syrups_tuple := b._syrups
      let sugar := b._sugar
      let iced := b._iced
      let price := calc_price base size milk syrups_tuple.length iced
      let description := make_description base size milk syrups_tuple sugar iced
      (b, .ok { base := base, size := size, milk := milk, syrups := syrups_tuple,
                sugar := sugar, iced := iced, price := price, description := description })

end CoffeeOrderBuilder

/-- `CoffeeOrder.__str__`. The fallback formats the price to two decimal
places; `format_2f` models that formatting for the (unreachable, see
C10) fallback branch. -/
def format_2f (q : ℚ) : String :=
  let cents : Int := round (q * 100)
  let sign := if cents < 0 then "-" else ""
  let a := cents.natAbs
  sign ++ toString (a / 100) ++ "." ++ (if a % 100 < 10 then "0" else "") ++ toString (a % 100)

/-- `CoffeeOrder.__str__`: the description if truthy (non-empty), else
the `"{size} {base} ({price:.2f})"` fallback. -/
def CoffeeOrder.render (o : CoffeeOrder) : String :=
  if o.description ≠ "" then o.description
  else o.size ++ " " ++ o.base ++ " (" ++ format_2f o.price ++ ")"

/-- One API call on a builder. -/
inductive Op where
  | op_set_base (s : String)
  | op_set_size (s : String)
  | op_set_milk (s : String)
  | op_add_syrup (s : String)
  | op_set_sugar (t : PyScalar)
  | op_set_iced (f : Bool)
  | op_clear_extras
  | op_build
deriving DecidableEq

open CoffeeOrderBuilder in
/-- Run one API call: post-state and optional error. -/
def runOp (b : CoffeeOrderBuilder) : Op → CoffeeOrderBuilder × Option BuildError
  | .op_set_base s => set_base b s
  | .op_set_size s => set_size b s
  | .op_set_milk s => set_milk b s
  | .op_add_syrup s => add_syrup b s
  | .op_set_sugar t => set_sugar b t
  | .op_set_iced f => set_iced b f
  | .op_clear_extras => clear_extras b
  | .op_build =>
    ((build b).1, match (build b).2 with | .ok _ => none | .error e => some e)

/-- Builder states reachable from a fresh builder by successful calls. -/
inductive Reachable : CoffeeOrderBuilder → Prop where
  | init : Reachable CoffeeOrderBuilder.init
  | step {b b' : CoffeeOrderBuilder} {op : Op} :
      Reachable b → runOp b op = (b', none) → Reachable b'

/-! ### Spec-side constant functions (from the claim's tables) -/

/-- The claim's base reference price table. -/
def base_reference_price (base : String) : ℚ :=
  if base = "espresso" then 200 else if base = "americano" then 250
  else if base = "latte" then 300 else if base = "cappuccino" then 320 else 0

/-- The claim's size multiplier table. -/
def size_multiplier (size : String) : ℚ :=
  if size = "small" then 1 else if size = "medium" then 1.2
  else if size = "large" then 1.4 else 0

/-- The claim's milk surcharge table. -/
def milk_surcharge (milk : String) : ℚ :=
  if milk = "none" then 0 else if milk = "whole" then 30 else if milk = "skim" then 30
  else if milk = "oat" then 60 else if milk = "soy" then 50 else 0

/-! ### Helper lemmas -/

lemma dict_get_BASE (x : String) : dict_get BASE_PRICES x = base_reference_price x := by
  simp only [dict_get, BASE_PRICES, List.lookup, base_reference_price]
  repeat' split
  all_goals simp_all [beq_iff_eq]

lemma dict_get_SIZE (x : String) : dict_get SIZE_MULTIPLIERS x = size_multiplier x := by
  simp only [dict_get, SIZE_MULTIPLIERS, List.lookup, size_multiplier]
  repeat' split
  all_goals simp_all [beq_iff_eq]

lemma dict_get_MILK (x : String) : dict_get MILK_PRICES x = milk_surcharge x := by
  simp only [dict_get, MILK_PRICES, List.lookup, milk_surcharge]
  repeat' split
  all_goals simp_all [beq_iff_eq]

/-- `build` on a complete state. -/
lemma build_some {b : CoffeeOrderBuilder} {base size : String}
    (hb : b._base = some base) (hs : b._size = some size) :
    CoffeeOrderBuilder.build b =
      (b, .ok { base := base, size := size, milk := b._milk, syrups := b._syrups,
                sugar := b._sugar, iced := b._iced,
                price := CoffeeOrderBuilder.calc_price base size b._milk b._syrups.length b._iced,
                description := CoffeeOrderBuilder.make_description base size b._milk b._syrups
                  b._sugar b._iced }) := by
  simp [CoffeeOrderBuilder.build, hb, hs]

/-- A complete builder: latte, small, no extras. -/
def b_ls : CoffeeOrderBuilder :=
  { _base := some "latte", _size := some "small", _milk := "none",
    _syrups := [], _sugar := 0, _iced := false }

/-- The order `b_ls` builds. -/
def o_ls : CoffeeOrder :=
  { base := "latte", size := "small", milk := "none", syrups := [], sugar := 0,
    iced := false, price := 300, description := "small latte" }

lemma calc_price_b_ls : CoffeeOrderBuilder.calc_price "latte" "small" "none" 0 false = 300 := by
  simp only [CoffeeOrderBuilder.calc_price, dict_get_BASE, dict_get_SIZE, dict_get_MILK,
    SYRUP_PRICE, ICED_RATE, base_reference_price, size_multiplier, milk_surcharge]
  norm_num
  simp

lemma build_b_ls : CoffeeOrderBuilder.build b_ls = (b_ls, .ok o_ls) := by
  have hd : CoffeeOrderBuilder.make_description "latte" "small" "none" [] 0 false
      = "small latte" := by decide
  rw [build_some (b := b_ls) rfl rfl]
  simp only [b_ls, o_ls, List.length_nil]
  rw [calc_price_b_ls, hd]

namespace Claims

/-- C1: for every finalized Order, the price equals
`base_reference_price(base) * size_multiplier(size) + milk_surcharge(milk)
+ 40 * distinct_syrup_count + (base_reference_price(base) * 0.2 if iced else 0)`
with the fixed tables (espresso 200, americano 250, latte 300,
cappuccino 320; small 1, medium 1.2, large 1.4; none 0 / whole 30 /
skim 30 / oat 60 / soy 50; syrup unit 40; iced rate 0.2), and the sugar
quantity has no effect on the price. -/
theorem C1_price_formula :
    (∀ (b : CoffeeOrderBuilder) (o : CoffeeOrder),
      (CoffeeOrderBuilder.build b).2 = .ok o →
      o.price = base_reference_price o.base * size_multiplier o.size
        + milk_surcharge o.milk + 40 * (o.syrups.length : ℚ)
        + (if o.iced then base_reference_price o.base * 0.2 else 0)) ∧
    (∀ (b : CoffeeOrderBuilder) (s : Int),
      ((CoffeeOrderBuilder.build { b with _sugar := s }).2.map CoffeeOrder.price)
        = ((CoffeeOrderBuilder.build b).2.map CoffeeOrder.price)) := by
  constructor
  · intro b o h
    cases hb : b._base with
    | none => simp [CoffeeOrderBuilder.build, hb] at h
    | some base =>
      cases hs : b._size with
      | none => simp [CoffeeOrderBuilder.build, hb, hs] at h
      | some size =>
        rw [build_some hb hs] at h
        cases h
        simp only [CoffeeOrderBuilder.calc_price, dict_get_BASE, dict_get_SIZE, dict_get_MILK,
          SYRUP_PRICE, ICED_RATE]
  · intro b s
    cases hb : b._base with
    | none => simp [CoffeeOrderBuilder.build, hb]
    | some base =>
      cases hs : b._size with
      | none => simp [CoffeeOrderBuilder.build, hb, hs]
      | some size =>
        rw [build_some hb hs,
          build_some (b := ⟨some base, some size, b._milk, b._syrups, s, b._iced⟩) rfl rfl]
        simp only [Except.map]

/-- Witness for C1 at a concrete order. -/
theorem C1_witness :
    o_ls.price = base_reference_price o_ls.base * size_multiplier o_ls.size
      + milk_surcharge o_ls.milk + 40 * (o_ls.syrups.length : ℚ)
      + (if o_ls.iced then base_reference_price o_ls.base * 0.2 else 0) :=
  C1_price_formula.1 b_ls o_ls (by rw [build_b_ls])

/-- C2: `build` fails with `IncompleteOrder` exactly when base or size is
unset; on success the Order's fields are the builder's current values
with price and description computed from them, and the builder state is
left unchanged (so repeated builds agree). -/
theorem C2_build_spec (b : CoffeeOrderBuilder) :
    (CoffeeOrderBuilder.build b).1 = b ∧
    (∀ e, (CoffeeOrderBuilder.build b).2 = .error e ↔
      (e = .incompleteOrder ∧ (b._base = none ∨ b._size = none))) ∧
    (∀ o, (CoffeeOrderBuilder.build b).2 = .ok o →
      b._base = some o.base ∧ b._size = some o.size ∧ o.milk = b._milk ∧
      o.syrups = b._syrups ∧ o.sugar = b._sugar ∧ o.iced = b._iced ∧
      o.price = CoffeeOrderBuilder.calc_price o.base o.size b._milk b._syrups.length b._iced ∧
      o.description =
        CoffeeOrderBuilder.make_description o.base o.size b._milk b._syrups b._sugar b._iced) := by
  cases hb : b._base with
  | none =>
    refine ⟨by simp [CoffeeOrderBuilder.build, hb], ?_, ?_⟩
    · intro e
      simp [CoffeeOrderBuilder.build, hb, eq_comm]
    · intro o h
      simp [CoffeeOrderBuilder.build, hb] at h
  | some base =>
    cases hs : b._size with
    | none =>
      refine ⟨by simp [CoffeeOrderBuilder.build, hb, hs], ?_, ?_⟩
      · intro e
        simp [CoffeeOrderBuilder.build, hb, hs, eq_comm]
      · intro o h
        simp [CoffeeOrderBuilder.build, hb, hs] at h
    | some size =>
      rw [build_some hb hs]
      refine ⟨rfl, ?_, ?_⟩
      · intro e
        simp [hb, hs]
      · intro o h
        cases h
        simp [hb, hs]

/-- Witness for C2: a successful build and a failing build, concretely. -/
theorem C2_witness :
    (b_ls._base = some o_ls.base ∧ b_ls._size = some o_ls.size ∧ o_ls.milk = b_ls._milk ∧
      o_ls.syrups = b_ls._syrups ∧ o_ls.sugar = b_ls._sugar ∧ o_ls.iced = b_ls._iced ∧
      o_ls.price =
        CoffeeOrderBuilder.calc_price o_ls.base o_ls.size b_ls._milk b_ls._syrups.length b_ls._iced ∧
      o_ls.description =
        CoffeeOrderBuilder.make_description o_ls.base o_ls.size b_ls._milk b_ls._syrups
          b_ls._sugar b_ls._iced) ∧
    ((CoffeeOrderBuilder.build CoffeeOrderBuilder.init).2 = .error .incompleteOrder ↔
      (BuildError.incompleteOrder = .incompleteOrder ∧
        (CoffeeOrderBuilder.init._base = none ∨ CoffeeOrderBuilder.init._size = none))) :=
  ⟨(C2_build_spec b_ls).2.2 o_ls (by rw [build_b_ls]),
   (C2_build_spec CoffeeOrderBuilder.init).2.1 .incompleteOrder⟩

end Claims

/-- The claim's description clauses, in the claim's fixed order; a clause
is present only when its condition holds. -/
def description_clauses (base size milk : String) (syrups : List String)
    (sugar : Int) (iced : Bool) : List String :=
  [some (size ++ " " ++ base),
   if milk ≠ "none" then some ("with " ++ milk ++ " milk") else none,
   if syrups ≠ [] then some ("+ " ++ str_join ", " syrups ++ " syrup") else none,
   if iced then some "(iced)" else none,
   if sugar > 0 then
     some (toString sugar ++ " " ++ (if sugar = 1 then "tsp" else "tsps") ++ " sugar")
   else none].reduceOption

lemma make_description_eq_clauses (base size milk : String) (syrups : List String)
    (sugar : Int) (iced : Bool) :
    CoffeeOrderBuilder.make_description base size milk syrups sugar iced
      = str_join " " (description_clauses base size milk syrups sugar iced) := by
  simp only [CoffeeOrderBuilder.make_description, description_clauses]
  split_ifs <;> simp [List.reduceOption]

namespace Claims

/-- C3: every finalized Order's description is the space-join of the
fixed ordered optional clauses: "{size} {base}" always; "with {milk}
milk" iff milk ≠ "none"; "+ {syrups joined by comma-space} syrup" iff
syrups non-empty (insertion order); "(iced)" iff iced; "{sugar} tsp(s)
sugar" iff sugar > 0, singular exactly for sugar = 1. -/
theorem C3_description (b : CoffeeOrderBuilder) (o : CoffeeOrder)
    (h : (CoffeeOrderBuilder.build b).2 = .ok o) :
    o.description =
      str_join " " (description_clauses o.base o.size o.milk o.syrups o.sugar o.iced) := by
  cases hb : b._base with
  | none => simp [CoffeeOrderBuilder.build, hb] at h
  | some base =>
    cases hs : b._size with
    | none => simp [CoffeeOrderBuilder.build, hb, hs] at h
    | some size =>
      rw [build_some hb hs] at h
      cases h
      exact make_description_eq_clauses ..

/-- Witness for C3 at a concrete order. -/
theorem C3_witness :
    o_ls.description =
      str_join " " (description_clauses o_ls.base o_ls.size o_ls.milk o_ls.syrups
        o_ls.sugar o_ls.iced) :=
  C3_description b_ls o_ls (by rw [build_b_ls])

/-- C4: `add_syrup` trims and lowercases its input; empty normalized
name fails with `InvalidArgument`; an already-present normalized name is
a successful no-op (even at capacity); otherwise a full list
(MAX_SYRUPS = 4) fails with `CapacityExceeded`, and else the normalized
name is appended at the end. -/
theorem C4_add_syrup (b : CoffeeOrderBuilder) (s : String) :
    (py_lower (py_strip s) = "" →
      CoffeeOrderBuilder.add_syrup b s = (b, some .invalidArgument)) ∧
    (py_lower (py_strip s) ≠ "" → py_lower (py_strip s) ∈ b._syrups →
      CoffeeOrderBuilder.add_syrup b s = (b, none)) ∧
    (py_lower (py_strip s) ≠ "" → py_lower (py_strip s) ∉ b._syrups →
      4 ≤ b._syrups.length →
      CoffeeOrderBuilder.add_syrup b s = (b, some .capacityExceeded)) ∧
    (py_lower (py_strip s) ≠ "" → py_lower (py_strip s) ∉ b._syrups →
      b._syrups.length < 4 →
      CoffeeOrderBuilder.add_syrup b s
        = ({ b with _syrups := b._syrups ++ [py_lower (py_strip s)] }, none)) ∧
    MAX_SYRUPS = 4 := by
  refine ⟨?_, ?_, ?_, ?_, rfl⟩
  · intro h1
    simp [CoffeeOrderBuilder.add_syrup, h1]
  · intro h1 h2
    simp [CoffeeOrderBuilder.add_syrup, h1, h2]
  · intro h1 h2 h3
    simp only [CoffeeOrderBuilder.add_syrup, MAX_SYRUPS]
    rw [if_neg h1, if_neg h2, if_pos h3]
  · intro h1 h2 h3
    simp only [CoffeeOrderBuilder.add_syrup, MAX_SYRUPS]
    rw [if_neg h1, if_neg h2, if_neg (by omega)]

/-- Witness for C4: normalization appends, idempotence at capacity,
empty name, and capacity overflow, each at concrete inputs. -/
theorem C4_witness :
    CoffeeOrderBuilder.add_syrup CoffeeOrderBuilder.init "  Vanilla "
      = ({ CoffeeOrderBuilder.init with _syrups := ["vanilla"] }, none) ∧
    CoffeeOrderBuilder.add_syrup CoffeeOrderBuilder.init "   "
      = (CoffeeOrderBuilder.init, some .invalidArgument) ∧
    CoffeeOrderBuilder.add_syrup
        { CoffeeOrderBuilder.init with _syrups := ["a", "b", "c", "d"] } " B "
      = ({ CoffeeOrderBuilder.init with _syrups := ["a", "b", "c", "d"] }, none) ∧
    CoffeeOrderBuilder.add_syrup
        { CoffeeOrderBuilder.init with _syrups := ["a", "b", "c", "d"] } "e"
      = ({ CoffeeOrderBuilder.init with _syrups := ["a", "b", "c", "d"] },
         some .capacityExceeded) :=
  ⟨(C4_add_syrup CoffeeOrderBuilder.init "  Vanilla ").2.2.2.1 (by decide) (by decide)
     (by decide),
   (C4_add_syrup CoffeeOrderBuilder.init "   ").1 (by decide),
   (C4_add_syrup { CoffeeOrderBuilder.init with _syrups := ["a", "b", "c", "d"] } " B ").2.1
     (by decide) (by decide),
   (C4_add_syrup { CoffeeOrderBuilder.init with _syrups := ["a", "b", "c", "d"] } "e").2.2.1
     (by decide) (by decide) (by decide)⟩

/-- C7: `set_sugar` succeeds exactly on integers in [0, MAX_SUGAR] with
MAX_SUGAR = 5, storing the value; non-integers and out-of-range integers
fail with `InvalidArgument` leaving the stored value unchanged. -/
theorem C7_set_sugar (b : CoffeeOrderBuilder) (t : Int) :
    (0 ≤ t → t ≤ 5 →
      CoffeeOrderBuilder.set_sugar b (.int t) = ({ b with _sugar := t }, none)) ∧
    (t < 0 ∨ 5 < t →
      CoffeeOrderBuilder.set_sugar b (.int t) = (b, some .invalidArgument)) ∧
    CoffeeOrderBuilder.set_sugar b .nonInt = (b, some .invalidArgument) ∧
    MAX_SUGAR = 5 := by
  refine ⟨?_, ?_, rfl, rfl⟩
  · intro h1 h2
    simp only [CoffeeOrderBuilder.set_sugar, MAX_SUGAR]
    rw [if_neg (by omega)]
  · intro h
    simp only [CoffeeOrderBuilder.set_sugar, MAX_SUGAR]
    rw [if_pos (by omega)]

/-- Witness for C7: acceptance at 0 and 5, rejection at -1 and 6 and of
a non-integer, concretely. -/
theorem C7_witness :
    CoffeeOrderBuilder.set_sugar CoffeeOrderBuilder.init (.int 5)
      = ({ CoffeeOrderBuilder.init with _sugar := 5 }, none) ∧
    CoffeeOrderBuilder.set_sugar CoffeeOrderBuilder.init (.int (-1))
      = (CoffeeOrderBuilder.init, some .invalidArgument) ∧
    CoffeeOrderBuilder.set_sugar CoffeeOrderBuilder.init (.int 6)
      = (CoffeeOrderBuilder.init, some .invalidArgument) ∧
    CoffeeOrderBuilder.set_sugar CoffeeOrderBuilder.init .nonInt
      = (CoffeeOrderBuilder.init, some .invalidArgument) :=
  ⟨(C7_set_sugar CoffeeOrderBuilder.init 5).1 (by decide) (by decide),
   (C7_set_sugar CoffeeOrderBuilder.init (-1)).2.1 (by decide),
   (C7_set_sugar CoffeeOrderBuilder.init 6).2.1 (by decide),
   (C7_set_sugar CoffeeOrderBuilder.init 0).2.2.1⟩

end Claims

/-! ### Whitespace / normalization lemmas -/

lemma toLower_not_ws {c : Char} (h : c.isWhitespace = false) :
    (Char.toLower c).isWhitespace = false := by
  simp only [Char.toLower]
  split
  · next hc =>
    obtain ⟨h1, h2⟩ := hc
    generalize Char.toNat c = n at h1 h2 ⊢
    interval_cases n <;> decide
  · exact h

lemma exists_not_of_dropWhile_ne_nil {α : Type} (p : α → Bool) :
    ∀ l : List α, l.dropWhile p ≠ [] → ∃ x ∈ l.dropWhile p, p x = false := by
  intro l
  induction l with
  | nil => simp [List.dropWhile]
  | cons a t ih =>
    intro hne
    rw [List.dropWhile_cons] at hne ⊢
    cases hpa : p a with
    | true =>
      simp only [hpa, if_pos] at hne ⊢
      exact ih hne
    | false =>
      exact ⟨a, by simp [hpa], hpa⟩

lemma py_strip_chars_has_non_ws {l : List Char} (h : py_strip_chars l ≠ []) :
    ∃ c ∈ py_strip_chars l, c.isWhitespace = false := by
  unfold py_strip_chars at h ⊢
  set u := (l.dropWhile Char.isWhitespace).reverse.dropWhile Char.isWhitespace with hu
  have hne : u ≠ [] := by
    intro hc
    rw [hc] at h
    simp at h
  obtain ⟨c, hc1, hc2⟩ := exists_not_of_dropWhile_ne_nil Char.isWhitespace _ hne
  exact ⟨c, by simpa using hc1, hc2⟩

/-- A normalized non-empty syrup name contains a non-whitespace
character. -/
lemma normalized_has_non_ws {s : String} (h : py_lower (py_strip s) ≠ "") :
    (py_lower (py_strip s)).data.any (fun c => !c.isWhitespace) = true := by
  have hdata : (py_lower (py_strip s)).data = (py_strip_chars s.data).map Char.toLower := rfl
  have hne : py_strip_chars s.data ≠ [] := by
    intro hc
    apply h
    show py_lower ⟨py_strip_chars s.data⟩ = ""
    rw [hc]
    rfl
  obtain ⟨c, hc1, hc2⟩ := py_strip_chars_has_non_ws hne
  rw [List.any_eq_true]
  refine ⟨Char.toLower c, ?_, ?_⟩
  · rw [hdata]
    exact List.mem_map_of_mem Char.toLower hc1
  · simp [toLower_not_ws hc2]

/-! ### Invariant and reachability -/

/-- The inductive invariant on builder states: the syrup list is
duplicate-free, holds only non-empty, non-whitespace-only entries and at
most MAX_SYRUPS of them; sugar lies in [0, MAX_SUGAR]; a set base or
size belongs to its allowed set. -/
def BuilderInv (b : CoffeeOrderBuilder) : Prop :=
  b._syrups.Nodup ∧
  (∀ e ∈ b._syrups, e ≠ "" ∧ e.data.any (fun c => !c.isWhitespace) = true) ∧
  b._syrups.length ≤ MAX_SYRUPS ∧
  0 ≤ b._sugar ∧ b._sugar ≤ MAX_SUGAR ∧
  (∀ x, b._base = some x → x ∈ ALLOWED_BASES) ∧
  (∀ x, b._size = some x → x ∈ ALLOWED_SIZES)

lemma build_fst (b : CoffeeOrderBuilder) : (CoffeeOrderBuilder.build b).1 = b := by
  cases hb : b._base with
  | none => simp [CoffeeOrderBuilder.build, hb]
  | some base =>
    cases hs : b._size with
    | none => simp [CoffeeOrderBuilder.build, hb, hs]
    | some size => rw [build_some hb hs]

lemma reachable_inv {b : CoffeeOrderBuilder} (h : Reachable b) : BuilderInv b := by
  induction h with
  | init =>
    refine ⟨by simp [CoffeeOrderBuilder.init], by simp [CoffeeOrderBuilder.init], ?_, ?_, ?_, ?_, ?_⟩ <;>
      simp [CoffeeOrderBuilder.init, MAX_SYRUPS, MAX_SUGAR]
  | step hre hop ih =>
    rename_i b b' op
    obtain ⟨i1, i2, i3, i4, i5, i6, i7⟩ := ih
    cases op with
    | op_set_base s =>
      simp only [runOp, CoffeeOrderBuilder.set_base] at hop
      split at hop
      · simp at hop
      · next hmem =>
        rw [not_not] at hmem
        injection hop with hb' _
        subst hb'
        exact ⟨i1, i2, i3, i4, i5, fun x hx => by cases hx; exact hmem, i7⟩
    | op_set_size s =>
      simp only [runOp, CoffeeOrderBuilder.set_size] at hop
      split at hop
      · simp at hop
      · next hmem =>
        rw [not_not] at hmem
        injection hop with hb' _
        subst hb'
        exact ⟨i1, i2, i3, i4, i5, i6, fun x hx => by cases hx; exact hmem⟩
    | op_set_milk s =>
      simp only [runOp, CoffeeOrderBuilder.set_milk] at hop
      split at hop
      · simp at hop
      · injection hop with hb' _
        subst hb'
        exact ⟨i1, i2, i3, i4, i5, i6, i7⟩
    | op_add_syrup s =>
      simp only [runOp, CoffeeOrderBuilder.add_syrup] at hop
      split at hop
      · simp at hop
      · split at hop
        · injection hop with hb' _
          subst hb'
          exact ⟨i1, i2, i3, i4, i5, i6, i7⟩
        · split at hop
          · simp at hop
          · next hlen =>
            rename_i hemp hmem
            injection hop with hb' _
            subst hb'
            refine ⟨?_, ?_, ?_, i4, i5, i6, i7⟩
            · rw [List.nodup_append]
              exact ⟨i1, List.nodup_singleton _, by
                intro a ha hb
                rw [List.mem_singleton] at hb
                subst hb
                exact hmem ha⟩
            · intro e he
              rw [List.mem_append, List.mem_singleton] at he
              cases he with
              | inl h0 => exact i2 e h0
              | inr h0 =>
                subst h0
                exact ⟨hemp, normalized_has_non_ws hemp⟩
            · rw [not_le] at hlen
              rw [List.length_append, List.length_singleton]
              omega
    | op_set_sugar t =>
      cases t with
      | nonInt => simp [runOp, CoffeeOrderBuilder.set_sugar] at hop
      | int n =>
        simp only [runOp, CoffeeOrderBuilder.set_sugar] at hop
        split at hop
        · simp at hop
        · next hrange =>
          push_neg at hrange
          injection hop with hb' _
          subst hb'
          exact ⟨i1, i2, i3, hrange.1, hrange.2, i6, i7⟩
    | op_set_iced f =>
      simp only [runOp, CoffeeOrderBuilder.set_iced] at hop
      injection hop with hb' _
      subst hb'
      exact ⟨i1, i2, i3, i4, i5, i6, i7⟩
    | op_clear_extras =>
      simp only [runOp, CoffeeOrderBuilder.clear_extras] at hop
      injection hop with hb' _
      subst hb'
      refine ⟨by simp, by simp, by simp [MAX_SYRUPS], by simp, by simp [MAX_SUGAR], i6, i7⟩
    | op_build =>
      simp only [runOp] at hop
      injection hop with hb' _
      rw [build_fst] at hb'
      subst hb'
      exact ⟨i1, i2, i3, i4, i5, i6, i7⟩

namespace Claims

/-- C5: in every builder state reachable by successful operations from a
fresh builder, the syrup list has no duplicates, no empty and no
whitespace-only entries, and at most MAX_SYRUPS = 4 entries, and sugar
lies in [0, MAX_SUGAR]; every Order finalized from such a state
satisfies the same bounds and has a base and size from the allowed
sets. -/
theorem C5_invariants (b : CoffeeOrderBuilder) (h : Reachable b) :
    (b._syrups.Nodup ∧
     (∀ e ∈ b._syrups, e ≠ "" ∧ e.data.any (fun c => !c.isWhitespace) = true) ∧
     b._syrups.length ≤ MAX_SYRUPS ∧ 0 ≤ b._sugar ∧ b._sugar ≤ MAX_SUGAR) ∧
    (∀ o, (CoffeeOrderBuilder.build b).2 = .ok o →
      o.base ∈ ALLOWED_BASES ∧ o.size ∈ ALLOWED_SIZES ∧ o.syrups.Nodup ∧
      (∀ e ∈ o.syrups, e ≠ "" ∧ e.data.any (fun c => !c.isWhitespace) = true) ∧
      o.syrups.length ≤ MAX_SYRUPS ∧ 0 ≤ o.sugar ∧ o.sugar ≤ MAX_SUGAR) := by
  obtain ⟨i1, i2, i3, i4, i5, i6, i7⟩ := reachable_inv h
  refine ⟨⟨i1, i2, i3, i4, i5⟩, ?_⟩
  intro o ho
  cases hb : b._base with
  | none => simp [CoffeeOrderBuilder.build, hb] at ho
  | some base =>
    cases hs : b._size with
    | none => simp [CoffeeOrderBuilder.build, hb, hs] at ho
    | some size =>
      rw [build_some hb hs] at ho
      cases ho
      exact ⟨i6 base hb, i7 size hs, i1, i2, i3, i4, i5⟩

/-- Witness for C5: the fresh-builder state extended by `set_base
"latte"` then `set_size "small"` is reachable, and the Order it builds
is valid. -/
theorem C5_witness :
    (b_ls._syrups.Nodup ∧ b_ls._syrups.length ≤ MAX_SYRUPS ∧
     0 ≤ b_ls._sugar ∧ b_ls._sugar ≤ MAX_SUGAR) ∧
    (o_ls.base ∈ ALLOWED_BASES ∧ o_ls.size ∈ ALLOWED_SIZES ∧ o_ls.syrups.Nodup ∧
     o_ls.syrups.length ≤ MAX_SYRUPS ∧ 0 ≤ o_ls.sugar ∧ o_ls.sugar ≤ MAX_SUGAR) := by
  have hs1 : runOp CoffeeOrderBuilder.init (.op_set_base "latte")
      = ({ CoffeeOrderBuilder.init with _base := some "latte" }, none) := by decide
  have hr1 : Reachable { CoffeeOrderBuilder.init with _base := some "latte" } :=
    .step .init hs1
  have hs2 : runOp { CoffeeOrderBuilder.init with _base := some "latte" } (.op_set_size "small")
      = (b_ls, none) := by decide
  have hreach : Reachable b_ls := .step hr1 hs2
  have h := C5_invariants b_ls hreach
  have h2 := h.2 o_ls (by rw [build_b_ls])
  exact ⟨⟨h.1.1, h.1.2.2.1, h.1.2.2.2.1, h.1.2.2.2.2⟩,
         ⟨h2.1, h2.2.1, h2.2.2.1, h2.2.2.2.2.1, h2.2.2.2.2.2.1, h2.2.2.2.2.2.2⟩⟩

end Claims

/-! ### Monotonicity helpers -/

/-- The claim's size order: small < medium < large. -/
def size_lt (a b : String) : Prop :=
  (a = "small" ∧ b = "medium") ∨ (a = "small" ∧ b = "large") ∨ (a = "medium" ∧ b = "large")

lemma base_price_pos {x : String} (hx : x ∈ ALLOWED_BASES) : 0 < dict_get BASE_PRICES x := by
  have hx4 : x = "espresso" ∨ x = "americano" ∨ x = "latte" ∨ x = "cappuccino" := by
    simpa [ALLOWED_BASES, BASE_PRICES] using hx
  rcases hx4 with rfl | rfl | rfl | rfl
  · rw [show dict_get BASE_PRICES "espresso" = 200 from rfl]
    norm_num
  · rw [show dict_get BASE_PRICES "americano" = 250 from rfl]
    norm_num
  · rw [show dict_get BASE_PRICES "latte" = 300 from rfl]
    norm_num
  · rw [show dict_get BASE_PRICES "cappuccino" = 320 from rfl]
    norm_num

lemma size_mult_lt {a b : String} (h : size_lt a b) :
    dict_get SIZE_MULTIPLIERS a < dict_get SIZE_MULTIPLIERS b := by
  have e1 : dict_get SIZE_MULTIPLIERS "small" = 1 := rfl
  have e2 : dict_get SIZE_MULTIPLIERS "medium" = 1.2 := rfl
  have e3 : dict_get SIZE_MULTIPLIERS "large" = 1.4 := rfl
  rcases h with ⟨rfl, rfl⟩ | ⟨rfl, rfl⟩ | ⟨rfl, rfl⟩
  · rw [e1, e2]
    norm_num
  · rw [e1, e3]
    norm_num
  · rw [e2, e3]
    norm_num

/-- `b_ls` plus one caramel syrup. -/
def b_cs : CoffeeOrderBuilder :=
  { _base := some "latte", _size := some "small", _milk := "none",
    _syrups := ["caramel"], _sugar := 0, _iced := false }

/-- The order `b_cs` builds. -/
def o_cs : CoffeeOrder :=
  { base := "latte", size := "small", milk := "none", syrups := ["caramel"], sugar := 0,
    iced := false, price := 340, description := "small latte + caramel syrup" }

/-- `b_ls` iced. -/
def b_ils : CoffeeOrderBuilder :=
  { _base := some "latte", _size := some "small", _milk := "none",
    _syrups := [], _sugar := 0, _iced := true }

/-- The order `b_ils` builds. -/
def o_ils : CoffeeOrder :=
  { base := "latte", size := "small", milk := "none", syrups := [], sugar := 0,
    iced := true, price := 360, description := "small latte (iced)" }

/-- `b_ls` in size medium. -/
def b_lm : CoffeeOrderBuilder :=
  { _base := some "latte", _size := some "medium", _milk := "none",
    _syrups := [], _sugar := 0, _iced := false }

/-- The order `b_lm` builds. -/
def o_lm : CoffeeOrder :=
  { base := "latte", size := "medium", milk := "none", syrups := [], sugar := 0,
    iced := false, price := 360, description := "medium latte" }

lemma calc_price_b_cs : CoffeeOrderBuilder.calc_price "latte" "small" "none" 1 false = 340 := by
  simp only [CoffeeOrderBuilder.calc_price]
  rw [show dict_get BASE_PRICES "latte" = 300 from rfl,
    show dict_get SIZE_MULTIPLIERS "small" = 1 from rfl,
    show dict_get MILK_PRICES "none" = 0 from rfl]
  norm_num [SYRUP_PRICE]

lemma calc_price_b_ils : CoffeeOrderBuilder.calc_price "latte" "small" "none" 0 true = 360 := by
  simp only [CoffeeOrderBuilder.calc_price]
  rw [show dict_get BASE_PRICES "latte" = 300 from rfl,
    show dict_get SIZE_MULTIPLIERS "small" = 1 from rfl,
    show dict_get MILK_PRICES "none" = 0 from rfl]
  norm_num [SYRUP_PRICE, ICED_RATE]

lemma calc_price_b_lm : CoffeeOrderBuilder.calc_price "latte" "medium" "none" 0 false = 360 := by
  simp only [CoffeeOrderBuilder.calc_price]
  rw [show dict_get BASE_PRICES "latte" = 300 from rfl,
    show dict_get SIZE_MULTIPLIERS "medium" = 1.2 from rfl,
    show dict_get MILK_PRICES "none" = 0 from rfl]
  norm_num [SYRUP_PRICE]

lemma build_b_cs : CoffeeOrderBuilder.build b_cs = (b_cs, .ok o_cs) := by
  have hd : CoffeeOrderBuilder.make_description "latte" "small" "none" ["caramel"] 0 false
      = "small latte + caramel syrup" := by decide
  rw [build_some (b := b_cs) rfl rfl]
  simp only [b_cs, o_cs, List.length_cons, List.length_nil]
  rw [calc_price_b_cs, hd]

lemma build_b_ils : CoffeeOrderBuilder.build b_ils = (b_ils, .ok o_ils) := by
  have hd : CoffeeOrderBuilder.make_description "latte" "small" "none" [] 0 true
      = "small latte (iced)" := by decide
  rw [build_some (b := b_ils) rfl rfl]
  simp only [b_ils, o_ils, List.length_nil]
  rw [calc_price_b_ils, hd]

lemma build_b_lm : CoffeeOrderBuilder.build b_lm = (b_lm, .ok o_lm) := by
  have hd : CoffeeOrderBuilder.make_description "latte" "medium" "none" [] 0 false
      = "medium latte" := by decide
  rw [build_some (b := b_lm) rfl rfl]
  simp only [b_lm, o_lm, List.length_nil]
  rw [calc_price_b_lm, hd]

namespace Claims

/-- C6: price is strictly monotonic: successfully adding one more
distinct syrup strictly increases the built price; setting iced strictly
increases the built price over the otherwise-identical hot order for
every allowed base; replacing the size by a larger one in the order
small < medium < large (whose multipliers are strictly increasing)
strictly increases the built price for every allowed base. -/
theorem C6_price_monotonic :
    (∀ (b b' : CoffeeOrderBuilder) (s : String) (o o' : CoffeeOrder),
      CoffeeOrderBuilder.add_syrup b s = (b', none) →
      b'._syrups.length = b._syrups.length + 1 →
      (CoffeeOrderBuilder.build b).2 = .ok o →
      (CoffeeOrderBuilder.build b').2 = .ok o' →
      o.price < o'.price) ∧
    (∀ (b : CoffeeOrderBuilder) (base : String) (o o' : CoffeeOrder),
      b._base = some base → base ∈ ALLOWED_BASES →
      (CoffeeOrderBuilder.build { b with _iced := false }).2 = .ok o →
      (CoffeeOrderBuilder.build { b with _iced := true }).2 = .ok o' →
      o.price < o'.price) ∧
    (∀ s1 s2, size_lt s1 s2 →
      dict_get SIZE_MULTIPLIERS s1 < dict_get SIZE_MULTIPLIERS s2) ∧
    (∀ (b : CoffeeOrderBuilder) (base s1 s2 : String) (o o' : CoffeeOrder),
      b._base = some base → base ∈ ALLOWED_BASES → size_lt s1 s2 →
      (CoffeeOrderBuilder.build { b with _size := some s1 }).2 = .ok o →
      (CoffeeOrderBuilder.build { b with _size := some s2 }).2 = .ok o' →
      o.price < o'.price) := by
  refine ⟨?_, ?_, fun s1 s2 h => size_mult_lt h, ?_⟩
  · intro b b' s o o' hadd hlen ho ho'
    simp only [CoffeeOrderBuilder.add_syrup] at hadd
    split at hadd
    · simp at hadd
    · split at hadd
      · injection hadd with h1 _
        subst h1
        omega
      · split at hadd
        · simp at hadd
        · injection hadd with h1 _
          subst h1
          cases hb : b._base with
          | none => simp [CoffeeOrderBuilder.build, hb] at ho
          | some base =>
            cases hs : b._size with
            | none => simp [CoffeeOrderBuilder.build, hb, hs] at ho
            | some size =>
              rw [build_some hb hs] at ho
              rw [build_some (b := { b with _syrups := b._syrups ++ [py_lower (py_strip s)] })
                hb hs] at ho'
              cases ho
              cases ho'
              simp only [CoffeeOrderBuilder.calc_price, SYRUP_PRICE, List.length_append,
                List.length_singleton]
              push_cast
              linarith
  · intro b base o o' hb hmem ho ho'
    cases hs : b._size with
    | none => simp [CoffeeOrderBuilder.build, hb, hs] at ho
    | some size =>
      rw [build_some (b := { b with _iced := false }) hb hs] at ho
      rw [build_some (b := { b with _iced := true }) hb hs] at ho'
      cases ho
      cases ho'
      simp only [CoffeeOrderBuilder.calc_price]
      rw [show (if false = true then dict_get BASE_PRICES base * ICED_RATE else 0) = 0
          from by simp]
      simp only [if_true, show (true = true) = True from by simp, add_zero]
      have hpos : 0 < dict_get BASE_PRICES base * ICED_RATE :=
        mul_pos (base_price_pos hmem) (by norm_num [ICED_RATE])
      linarith
  · intro b base s1 s2 o o' hb hmem hlt ho ho'
    rw [build_some (b := { b with _size := some s1 }) hb rfl] at ho
    rw [build_some (b := { b with _size := some s2 }) hb rfl] at ho'
    cases ho
    cases ho'
    simp only [CoffeeOrderBuilder.calc_price]
    have hmul := mul_lt_mul_of_pos_left (size_mult_lt hlt) (base_price_pos hmem)
    linarith

/-- Witness for C6: each monotonicity clause at concrete orders. -/
theorem C6_witness :
    o_ls.price < o_cs.price ∧ o_ls.price < o_ils.price ∧
    dict_get SIZE_MULTIPLIERS "small" < dict_get SIZE_MULTIPLIERS "medium" ∧
    o_ls.price < o_lm.price :=
  ⟨C6_price_monotonic.1 b_ls b_cs "caramel" o_ls o_cs (by decide) (by decide)
     (by rw [build_b_ls]) (by rw [build_b_cs]),
   C6_price_monotonic.2.1 b_ls "latte" o_ls o_ils rfl (by decide)
     (by rw [show ({ b_ls with _iced := false } : CoffeeOrderBuilder) = b_ls from rfl,
           build_b_ls])
     (by rw [show ({ b_ls with _iced := true } : CoffeeOrderBuilder) = b_ils from rfl,
           build_b_ils]),
   C6_price_monotonic.2.2.1 "small" "medium" (Or.inl ⟨rfl, rfl⟩),
   C6_price_monotonic.2.2.2 b_ls "latte" "small" "medium" o_ls o_lm rfl (by decide)
     (Or.inl ⟨rfl, rfl⟩)
     (by rw [show ({ b_ls with _size := some "small" } : CoffeeOrderBuilder) = b_ls from rfl,
           build_b_ls])
     (by rw [show ({ b_ls with _size := some "medium" } : CoffeeOrderBuilder) = b_lm from rfl,
           build_b_lm])⟩

end Claims

/-! ### Description non-emptiness -/

lemma str_join_data_cons (sep p : String) (l : List String) :
    ∃ t, (str_join sep (p :: l)).data = p.data ++ t := by
  cases l with
  | nil => exact ⟨[], by simp [str_join]⟩
  | cons q r =>
    have he : str_join sep (p :: q :: r) = p ++ sep ++ str_join sep (q :: r) := rfl
    exact ⟨sep.data ++ (str_join sep (q :: r)).data, by simp [he, String.data_append]⟩

lemma str_join_ne_empty {sep p : String} (l : List String) (hp : p.data ≠ []) :
    str_join sep (p :: l) ≠ "" := by
  obtain ⟨t, ht⟩ := str_join_data_cons sep p l
  intro hc
  rw [hc] at ht
  have hnil : ([] : List Char) = p.data ++ t := ht
  exact hp (List.append_eq_nil.mp hnil.symm).1

lemma make_description_ne_empty (base size milk : String) (syrups : List String)
    (sugar : Int) (iced : Bool) :
    CoffeeOrderBuilder.make_description base size milk syrups sugar iced ≠ "" := by
  have hsp : (" " : String).data = [' '] := rfl
  have hp0 : (size ++ " " ++ base).data ≠ [] := by
    simp [String.data_append, hsp]
  unfold CoffeeOrderBuilder.make_description
  split_ifs <;> exact str_join_ne_empty _ hp0

namespace Claims

/-- C8: each failing operation raises the error kind named for it and no
other: the three selection setters only `InvalidSelection`; `add_syrup`
only `InvalidArgument` (empty normalized name) or `CapacityExceeded`
(full list); `set_sugar` only `InvalidArgument`; `build` only
`IncompleteOrder`; `set_iced` and `clear_extras` never fail. -/
theorem C8_error_kinds :
    (∀ (b : CoffeeOrderBuilder) (s : String) (e : BuildError),
      (CoffeeOrderBuilder.set_base b s).2 = some e → e = .invalidSelection) ∧
    (∀ (b : CoffeeOrderBuilder) (s : String) (e : BuildError),
      (CoffeeOrderBuilder.set_size b s).2 = some e → e = .invalidSelection) ∧
    (∀ (b : CoffeeOrderBuilder) (s : String) (e : BuildError),
      (CoffeeOrderBuilder.set_milk b s).2 = some e → e = .invalidSelection) ∧
    (∀ (b : CoffeeOrderBuilder) (s : String) (e : BuildError),
      (CoffeeOrderBuilder.add_syrup b s).2 = some e →
      (e = .invalidArgument ∧ py_lower (py_strip s) = "") ∨
      (e = .capacityExceeded ∧ MAX_SYRUPS ≤ b._syrups.length)) ∧
    (∀ (b : CoffeeOrderBuilder) (t : PyScalar) (e : BuildError),
      (CoffeeOrderBuilder.set_sugar b t).2 = some e → e = .invalidArgument) ∧
    (∀ (b : CoffeeOrderBuilder) (f : Bool), (CoffeeOrderBuilder.set_iced b f).2 = none) ∧
    (∀ b : CoffeeOrderBuilder, (CoffeeOrderBuilder.clear_extras b).2 = none) ∧
    (∀ (b : CoffeeOrderBuilder) (e : BuildError),
      (CoffeeOrderBuilder.build b).2 = .error e → e = .incompleteOrder) := by
  refine ⟨?_, ?_, ?_, ?_, ?_, fun b f => rfl, fun b => rfl, ?_⟩
  · intro b s e h
    simp only [CoffeeOrderBuilder.set_base] at h
    split at h <;> simp_all
  · intro b s e h
    simp only [CoffeeOrderBuilder.set_size] at h
    split at h <;> simp_all
  · intro b s e h
    simp only [CoffeeOrderBuilder.set_milk] at h
    split at h <;> simp_all
  · intro b s e h
    simp only [CoffeeOrderBuilder.add_syrup] at h
    split at h
    · next hemp =>
      left
      simp_all
    · split at h
      · simp_all
      · split at h
        · next hlen =>
          right
          simp_all
        · simp_all
  · intro b t e h
    cases t with
    | nonInt => simp_all [CoffeeOrderBuilder.set_sugar]
    | int n =>
      simp only [CoffeeOrderBuilder.set_sugar] at h
      split at h <;> simp_all
  · intro b e h
    cases hb : b._base with
    | none => simp_all [CoffeeOrderBuilder.build, hb]
    | some base =>
      cases hs : b._size with
      | none => simp_all [CoffeeOrderBuilder.build, hb, hs]
      | some size =>
        rw [build_some hb hs] at h
        simp at h

/-- Witness for C8: concrete failing calls of each classified kind. -/
theorem C8_witness :
    BuildError.invalidSelection = .invalidSelection ∧
    ((BuildError.capacityExceeded = .invalidArgument ∧ py_lower (py_strip "e") = "") ∨
      (BuildError.capacityExceeded = .capacityExceeded ∧
        MAX_SYRUPS ≤ ({ CoffeeOrderBuilder.init with
          _syrups := ["a", "b", "c", "d"] } : CoffeeOrderBuilder)._syrups.length)) ∧
    BuildError.invalidArgument = .invalidArgument ∧
    BuildError.incompleteOrder = .incompleteOrder :=
  ⟨C8_error_kinds.1 CoffeeOrderBuilder.init "tea" _ (by decide),
   C8_error_kinds.2.2.2.1 { CoffeeOrderBuilder.init with _syrups := ["a", "b", "c", "d"] }
     "e" _ (by decide),
   C8_error_kinds.2.2.2.2.1 CoffeeOrderBuilder.init .nonInt _ (by decide),
   C8_error_kinds.2.2.2.2.2.2.2 CoffeeOrderBuilder.init _ (by decide)⟩

/-- C9: whenever any builder operation fails, the builder state after
the call equals the state before it: no partial mutation on failure. -/
theorem C9_failure_preserves_state (b : CoffeeOrderBuilder) (op : Op) (e : BuildError)
    (h : (runOp b op).2 = some e) : (runOp b op).1 = b := by
  cases op with
  | op_set_base s =>
    by_cases hc : s ∉ ALLOWED_BASES
    · simp [runOp, CoffeeOrderBuilder.set_base, hc]
    · simp [runOp, CoffeeOrderBuilder.set_base, hc] at h
  | op_set_size s =>
    by_cases hc : s ∉ ALLOWED_SIZES
    · simp [runOp, CoffeeOrderBuilder.set_size, hc]
    · simp [runOp, CoffeeOrderBuilder.set_size, hc] at h
  | op_set_milk s =>
    by_cases hc : s ∉ ALLOWED_MILKS
    · simp [runOp, CoffeeOrderBuilder.set_milk, hc]
    · simp [runOp, CoffeeOrderBuilder.set_milk, hc] at h
  | op_add_syrup s =>
    by_cases h1 : py_lower (py_strip s) = ""
    · simp [runOp, CoffeeOrderBuilder.add_syrup, h1]
    · by_cases h2 : py_lower (py_strip s) ∈ b._syrups
      · simp [runOp, CoffeeOrderBuilder.add_syrup, h1, h2] at h
      · by_cases h3 : b._syrups.length ≥ MAX_SYRUPS
        · simp [runOp, CoffeeOrderBuilder.add_syrup, h1, h2, h3]
        · simp [runOp, CoffeeOrderBuilder.add_syrup, h1, h2, h3] at h
  | op_set_sugar t =>
    cases t with
    | nonInt => simp [runOp, CoffeeOrderBuilder.set_sugar]
    | int n =>
      by_cases hr : n < 0 ∨ n > MAX_SUGAR
      · simp [runOp, CoffeeOrderBuilder.set_sugar, hr]
      · simp [runOp, CoffeeOrderBuilder.set_sugar, hr] at h
  | op_set_iced f => simp [runOp, CoffeeOrderBuilder.set_iced] at h
  | op_clear_extras => simp [runOp, CoffeeOrderBuilder.clear_extras] at h
  | op_build => simp [runOp, build_fst]

/-- Witness for C9: a failing `set_sugar` call leaves the fresh builder
unchanged. -/
theorem C9_witness :
    (runOp CoffeeOrderBuilder.init (.op_set_sugar (.int (-1)))).1 = CoffeeOrderBuilder.init :=
  C9_failure_preserves_state CoffeeOrderBuilder.init (.op_set_sugar (.int (-1)))
    .invalidArgument (by decide)

/-- C10: every built Order has a non-empty description (its first clause
"{size} {base}" is always present), so the textual rendering returns the
description and the "{size} {base} (price)" fallback is unreachable. -/
theorem C10_render (b : CoffeeOrderBuilder) (o : CoffeeOrder)
    (h : (CoffeeOrderBuilder.build b).2 = .ok o) :
    o.description ≠ "" ∧ CoffeeOrder.render o = o.description := by
  cases hb : b._base with
  | none => simp [CoffeeOrderBuilder.build, hb] at h
  | some base =>
    cases hs : b._size with
    | none => simp [CoffeeOrderBuilder.build, hb, hs] at h
    | some size =>
      rw [build_some hb hs] at h
      cases h
      have hne := make_description_ne_empty base size b._milk b._syrups b._sugar b._iced
      exact ⟨hne, by simp [CoffeeOrder.render, hne]⟩

/-- Witness for C10 at a concrete order. -/
theorem C10_witness :
    o_ls.description ≠ "" ∧ CoffeeOrder.render o_ls = o_ls.description :=
  C10_render b_ls o_ls (by rw [build_b_ls])

end Claims

end Coffee
